import Mathlib

/-!
Verification development for the nginx buildpack sources
(`src/nginx/supply/supply.go` and `src/nginx/varify/varify.go`).

The Go code is shallowly embedded: maps become association lists, the
process environment becomes a `String → Option String` lookup, fallible
operations (including Go panics from failed type assertions or
out-of-range indexing) become `Except`, and side-effecting pipelines are
modelled as functions from an explicit world of collaborator outcomes to
a result together with a trace of observable events.
-/

namespace NginxBuildpack

/-! ## Version resolution (supply.go)

`Supplier.VersionLines` is a Go `map[string]string`; we embed it as an
association list with first-match lookup (Go map keys are unique, so the
lookup discipline is immaterial on well-formed tables). -/

/-- Lookup in an embedded Go `map[string]string`: the `val, ok := m[k]`
form, returning `none` when the key is absent. -/
def lookupLine (lines : List (String × String)) (k : String) : Option String :=
  (lines.find? (fun p => p.1 = k)).map (fun p => p.2)

/-- A parsed semantic version `major.minor.patch`. -/
structure SemVer where
  major : Nat
  minor : Nat
  patch : Nat
deriving DecidableEq, Repr

/-- Split a character list on a separator character; the Go/string
`split` convention: `n` separators yield `n + 1` groups, so the empty
input yields one empty group. -/
def splitOnChar (sep : Char) : List Char → List (List Char)
  | [] => [[]]
  | c :: rest =>
    let r := splitOnChar sep rest
    if c = sep then [] :: r
    else
      match r with
      | [] => [[c]]
      | g :: gs => (c :: g) :: gs

/-- Decimal value of a non-empty all-digit character list. -/
def natOfDigitsAux (acc : Nat) : List Char → Option Nat
  | [] => some acc
  | c :: rest =>
    if c.isDigit then natOfDigitsAux (acc * 10 + (c.toNat - 48)) rest
    else none

/-- Decimal value of a character list: `none` when empty or containing
a non-digit. -/
def natOfDigits : List Char → Option Nat
  | [] => none
  | c :: rest => natOfDigitsAux 0 (c :: rest)

/-- Parse a concrete version string of the form `"1.25.3"`. -/
def parseSemVer (s : String) : Option SemVer :=
  match splitOnChar '.' s.toList with
  | [a, b, c] =>
    match natOfDigits a, natOfDigits b, natOfDigits c with
    | some ma, some mi, some pa => some ⟨ma, mi, pa⟩
    | _, _, _ => none
  | _ => none

/-- A version constraint: an exact version, a `major.minor.*` wildcard,
a `major.*` wildcard, or the universal wildcard `*`. -/
inductive Constraint where
  | exact : SemVer → Constraint
  | wildcardPatch : Nat → Nat → Constraint
  | wildcardMinor : Nat → Constraint
  | any : Constraint
deriving DecidableEq, Repr

/-- Parse a constraint string such as `"1.25.3"`, `"1.25.*"`, `"1.*"`
or `"*"`.  A string that is none of these (in particular the empty
string) parses to `none` and matches no version at all. -/
def parseConstraint (s : String) : Option Constraint :=
  match splitOnChar '.' s.toList with
  | [['*']] => some Constraint.any
  | [a, ['*']] => (natOfDigits a).map Constraint.wildcardMinor
  | [a, b, ['*']] =>
    match natOfDigits a, natOfDigits b with
    | some ma, some mi => some (Constraint.wildcardPatch ma mi)
    | _, _ => none
  | _ => (parseSemVer s).map Constraint.exact

/-- Whether a parsed version satisfies a parsed constraint. -/
def satisfiesC (c : Constraint) (v : SemVer) : Bool :=
  match c with
  | Constraint.exact w => v = w
  | Constraint.wildcardPatch ma mi => v.major = ma && v.minor = mi
  | Constraint.wildcardMinor ma => v.major = ma
  | Constraint.any => true

/-- Whether version string `v` satisfies constraint string `c`: both
must parse, and the parsed version must lie in the constraint's range.
An unparsable constraint or version matches nothing, mirroring the
semver library used by the buildpack, whose matcher treats a failed
constraint or version parse as a non-match. -/
def constraintMatches (c v : String) : Bool :=
  match parseConstraint c with
  | none => false
  | some pc =>
    match parseSemVer v with
    | none => false
    | some pv => satisfiesC pc pv

/-- Strict numeric ordering on parsed versions
(major, then minor, then patch). -/
def semVerLt (a b : SemVer) : Bool :=
  a.major < b.major ||
    (a.major = b.major && (a.minor < b.minor ||
      (a.minor = b.minor && a.patch < b.patch)))

/-- Highest version among a list of version strings, returned as the
original string; strings that do not parse are ignored.  On ties the
earliest occurrence is kept. -/
def highestVersion : List String → Option String
  | [] => none
  | v :: rest =>
    match highestVersion rest with
    | none => if (parseSemVer v).isSome then some v else none
    | some b =>
      match parseSemVer v, parseSemVer b with
      | some pv, some pb => if semVerLt pb pv then some v else some b
      | some _, none => some v
      | none, _ => some b

/-- Resolution failures of the version resolver: the dependency manifest
lacks a `mainline` version line, or no available version matches the
effective constraint (the library's `no match found` error, also
produced when the constraint itself is unparsable, since such a
constraint matches nothing). -/
inductive ResolutionError where
  | NoMainlineAlias : ResolutionError
  | NoMatchingVersion : ResolutionError
deriving DecidableEq, Repr

/-- Modelled from the spec: `libbuildpack.FindMatchingVersion` is not
part of this repository; per the spec it treats its first argument as a
version constraint and finds the highest version in the available list
satisfying it, using standard semantic-version matching with wildcard
support, failing when no version matches. -/
def FindMatchingVersion (constraint : String) (versions : List String) :
    Except ResolutionError String :=
  match highestVersion (versions.filter (fun v => constraintMatches constraint v)) with
  | some v => Except.ok v
  | none => Except.error ResolutionError.NoMatchingVersion

/-- A resolved dependency: `libbuildpack.Dependency`. -/
structure Dependency where
  Name : String
  Version : String
deriving DecidableEq, Repr

/-- The tail of `Supplier.findMatchingVersion` once the effective
constraint is fixed: match it against the manifest's versions for the
dependency and wrap the result.  Takes no version-line table, so a
constraint handed to it is treated as a literal, never resolved through
the table again. -/
def resolveWith (allDependencyVersions : String → List String)
    (depName constraint : String) : Except ResolutionError Dependency :=
  match FindMatchingVersion constraint (allDependencyVersions depName) with
  | Except.error e => Except.error e
  | Except.ok ver => Except.ok ⟨depName, ver⟩

/-- The alias-resolution prefix of `Supplier.findMatchingVersion`:
an empty requested spec means the `mainline` line (absence of which is
an error); a non-empty spec that is a key of the table is replaced by
its bound value, and any other spec is kept as-is. -/
def effectiveConstraint (versionLines : List (String × String))
    (version : String) : Except ResolutionError String :=
  if version = "" then
    match lookupLine versionLines "mainline" with
    | some val => Except.ok val
    | none => Except.error ResolutionError.NoMainlineAlias
  else
    match lookupLine versionLines version with
    | some val => Except.ok val
    | none => Except.ok version

/-- Embedding of `Supplier.findMatchingVersion` (supply.go lines
222-241): resolve the requested spec through the version-line table
(empty ⇒ `mainline`, alias keys substituted once), then match the
resulting constraint against the manifest's versions for `depName`. -/
def findMatchingVersion (versionLines : List (String × String))
    (allDependencyVersions : String → List String)
    (depName version : String) : Except ResolutionError Dependency :=
  match effectiveConstraint versionLines version with
  | Except.error e => Except.error e
  | Except.ok constraint => resolveWith allDependencyVersions depName constraint

/-- Embedding of `Supplier.isStableLine` (supply.go lines 243-247):
read the `stable` version line (a plain Go map index, yielding `""`
when absent) and test whether the single given version matches it. -/
def isStableLine (versionLines : List (String × String)) (version : String) : Bool :=
  let stableLine := (lookupLine versionLines "stable").getD ""
  (FindMatchingVersion stableLine [version]).isOk

/-- Spec-side predicate for claim C5: the version matches the
constraint currently bound to the `stable` alias (false when no such
binding exists). -/
def matchesStableAlias (versionLines : List (String × String)) (version : String) : Bool :=
  match lookupLine versionLines "stable" with
  | some c => constraintMatches c version
  | none => false

/-! ## Service-binding lookup (varify.go, `getServiceProperty`)

`VCAP_SERVICES` is decoded with `json.Unmarshal` into a Go
`map[string][]interface{}`.  JSON values are embedded as `JVal`;
the numeric payload is kept as the source text of the number, since the
modelled operations never inspect it beyond failing a string assertion.
A Go type assertion that fails panics; panics are embedded as
`Except.error`, since either way the render is a hard failure. -/

/-- A decoded JSON value (`interface{}` after `json.Unmarshal`). -/
inductive JVal where
  | jnull : JVal
  | jbool : Bool → JVal
  | jnum : String → JVal
  | jstr : String → JVal
  | jarr : List JVal → JVal
  | jobj : List (String × JVal) → JVal

/-- Key lookup in a decoded JSON object (`map[string]interface{}`);
decoded objects have unique keys, so first-match lookup is faithful. -/
def lookupJ (kvs : List (String × JVal)) (k : String) : Option JVal :=
  (kvs.find? (fun p => p.1 = k)).map (fun p => p.2)

/-- The Go type assertion `x.(string)`: panics (an error here) unless
the value is present and a string. -/
def asString : Option JVal → Except String String
  | some (JVal.jstr s) => Except.ok s
  | _ => Except.error "interface conversion: interface is not string"

/-- The Go type assertion `x.(map[string]interface{})`. -/
def asObj : Option JVal → Except String (List (String × JVal))
  | some (JVal.jobj kvs) => Except.ok kvs
  | _ => Except.error "interface conversion: interface is not map"

/-- Decoding of the `VCAP_SERVICES` blob into
`map[string][]interface{}`.  `none` stands for a blob that is unset,
empty or not syntactically valid JSON: `json.Unmarshal` rejects it
before decoding anything and the map stays `nil`.  A valid blob whose
top level is not an object likewise leaves the map untouched; within a
top-level object, keys whose values are not arrays are dropped (their
type error is the one the caller ignores). -/
def decodeVCAP : Option JVal → List (String × List JVal)
  | none => []
  | some (JVal.jobj kvs) =>
    kvs.filterMap (fun kv =>
      match kv.2 with
      | JVal.jarr xs => some (kv.1, xs)
      | _ => none)
  | some _ => []

/-- `services[serviceType]` on the decoded catalog: a missing key (or a
nil map) yields the empty slice. -/
def bindingsOf (services : List (String × List JVal)) (serviceType : String) :
    List JVal :=
  ((services.find? (fun p => p.1 = serviceType)).map (fun p => p.2)).getD []

/-- The scanning loop of `getServiceProperty` (varify.go lines 60-72):
walk the bindings of the service type in catalog order; each element is
asserted to be an object and its `name` to be a string; on the first
binding whose name equals `serviceName`, with 3 arguments return
`properties[propKey]` asserted to a string, with 4 arguments assert it
to a nested object and return its `subPropKey` entry as a string; with
any other argument count the branch falls through and the loop
continues.  An exhausted loop returns the empty string. -/
def scanBindings (serviceName propKey subPropKey : String) (numArgs : Nat) :
    List JVal → Except String String
  | [] => Except.ok ""
  | b :: rest =>
    match b with
    | JVal.jobj svc =>
      match asString (lookupJ svc "name") with
      | Except.error e => Except.error e
      | Except.ok nm =>
        if serviceName = nm then
          if numArgs = 3 then
            asString (lookupJ svc propKey)
          else if numArgs = 4 then
            match asObj (lookupJ svc propKey) with
            | Except.error e => Except.error e
            | Except.ok prop => asString (lookupJ prop subPropKey)
          else
            scanBindings serviceName propKey subPropKey numArgs rest
        else
          scanBindings serviceName propKey subPropKey numArgs rest
    | _ => Except.error "interface conversion: interface is not map"

/-- Embedding of `getServiceProperty` (varify.go lines 50-74) over an
already-decoded catalog.  Indexing `args[0]`, `args[1]`, `args[2]`
panics when fewer than three arguments are given; `args[3]` is only
read in the four-argument branch, embedded by passing the head of the
remaining arguments (defaulted, but unread unless the count is 4). -/
def getServiceProperty (services : List (String × List JVal))
    (args : List String) : Except String String :=
  match args with
  | serviceType :: serviceName :: propKey :: rest =>
    scanBindings serviceName propKey (rest.headD "") (rest.length + 3)
      (bindingsOf services serviceType)
  | _ => Except.error "runtime error: index out of range"

/-! ## Template rendering (varify.go, `main`'s function map)

varify builds its template with the `html/template` package.  In the
plain-text context of an nginx configuration every substituted value is
passed through the package's HTML escaper before being written; literal
template text is emitted unchanged. -/

/-- The process environment: a partial map from variable names to
values.  `os.Getenv` collapses an unset variable to `""`. -/
def getenv (e : String → Option String) (x : String) : String := (e x).getD ""

/-- Per-character HTML escaping as applied by the templating package to
substituted values in text context: `<`, `>`, `&`, the two quote
characters, and the NUL byte are replaced. -/
def htmlEscapeChar (c : Char) : String :=
  if c = '<' then "&lt;"
  else if c = '>' then "&gt;"
  else if c = '&' then "&amp;"
  else if c = Char.ofNat 34 then "&#34;"
  else if c = Char.ofNat 39 then "&#39;"
  else if c = Char.ofNat 0 then "�"
  else String.singleton c

/-- HTML escaping of a substituted string value. -/
def htmlEscapeString (s : String) : String :=
  String.join (s.toList.map htmlEscapeChar)

/-- `filepath.Join` on the two operands used by the `module` directive
(path cleaning of dot segments is not exercised by the directive and is
not modelled). -/
def goFilepathJoin (dir file : String) : String :=
  if dir = "" then file
  else if file = "" then dir
  else dir ++ "/" ++ file

/-- A parsed template: a sequence of literal text runs and invocations
of the four directive functions of varify's function map. -/
inductive TNode where
  | text : String → TNode
  | envCall : String → TNode
  | portCall : TNode
  | moduleCall : String → TNode
  | svcpropCall : List String → TNode

/-- Execute one template node: literal text is copied verbatim, a
directive's string result is HTML-escaped by the engine before being
written, and a panic inside `svcprop` aborts the render. -/
def execNode (e : String → Option String)
    (services : List (String × List JVal)) : TNode → Except String String
  | TNode.text s => Except.ok s
  | TNode.envCall x => Except.ok (htmlEscapeString (getenv e x))
  | TNode.portCall => Except.ok (htmlEscapeString (getenv e "PORT"))
  | TNode.moduleCall m =>
    Except.ok (htmlEscapeString
      ("load_module " ++ goFilepathJoin (getenv e "NGINX_MODULES") m ++ ".so;"))
  | TNode.svcpropCall args =>
    (getServiceProperty services args).map htmlEscapeString

/-- Execute a parsed template front to back, concatenating node
outputs; the first failing node aborts the render. -/
def execTemplate (e : String → Option String)
    (services : List (String × List JVal)) : List TNode → Except String String
  | [] => Except.ok ""
  | n :: rest =>
    match execNode e services n with
    | Except.error er => Except.error er
    | Except.ok s =>
      match execTemplate e services rest with
      | Except.error er => Except.error er
      | Except.ok t => Except.ok (s ++ t)

/-! ## The standalone tool (varify.go, `main`)

`main` reads the target file, reopens it for writing with `os.Create`
(which truncates an existing file to length zero), parses the template,
and only then executes it into the file handle.  Each `log.Fatalf`
terminates the process; the state of the target file at that moment is
what remains on disk. -/

/-- Observable steps of a run of the standalone tool. -/
inductive MEvent where
  | readFile : MEvent
  | createFile : MEvent
  | parseTemplate : MEvent
  | executeTemplate : MEvent
deriving DecidableEq, Repr

/-- Process outcome of a run of the standalone tool. -/
inductive MainOutcome where
  | readError : MainOutcome
  | createError : MainOutcome
  | parseError : MainOutcome
  | execError : MainOutcome
  | success : MainOutcome
deriving DecidableEq, Repr

/-- The world a run of the standalone tool interacts with: the target
file's readable content (`none` when the read fails), whether
`os.Create` succeeds, the parser's verdict on the template body, and
the outcome of executing the parsed template (an execution error
carries the partial output already streamed to the file). -/
structure VarifyWorld where
  disk : Option String
  createOk : Bool
  parseOk : String → Bool
  renderResult : String → Except (String × String) String

/-- Embedding of varify's `main` (varify.go lines 13-48).  Returns the
process outcome, the final content of the target file (`none` when the
file was never touched because the read itself failed), and the trace
of steps reached.  A failed `os.Create` leaves the file as it was; a
successful one truncates it to the empty string before the template is
parsed. -/
def varifyMain (w : VarifyWorld) : MainOutcome × Option String × List MEvent :=
  match w.disk with
  | none => (MainOutcome.readError, none, [MEvent.readFile])
  | some body =>
    if w.createOk = false then
      (MainOutcome.createError, some body, [MEvent.readFile, MEvent.createFile])
    else if w.parseOk body = false then
      (MainOutcome.parseError, some "",
        [MEvent.readFile, MEvent.createFile, MEvent.parseTemplate])
    else
      match w.renderResult body with
      | Except.error pe =>
        (MainOutcome.execError, some pe.2,
          [MEvent.readFile, MEvent.createFile, MEvent.parseTemplate,
            MEvent.executeTemplate])
      | Except.ok out =>
        (MainOutcome.success, some out,
          [MEvent.readFile, MEvent.createFile, MEvent.parseTemplate,
            MEvent.executeTemplate])

/-! ## Configuration validation (supply.go, `validateNginxConf`) -/

/-- Errors of the validator pipeline, one per return site:
I/O failures surfaced verbatim, the `no nginx` error, the missing
port-placeholder error, failures of the temp-dir / copy / render
steps, and the nginx syntax-test failure. -/
inductive VError where
  | ioError : String → VError
  | notFound : VError
  | noPortPlaceholder : VError
  | tempDirError : VError
  | copyError : VError
  | renderError : VError
  | syntaxError : VError
deriving DecidableEq, Repr

/-- Observable steps of the validator pipeline. -/
inductive VEvent where
  | checkExists : VEvent
  | readConf : VEvent
  | createTempDir : VEvent
  | copyDir : VEvent
  | runVarify : VEvent
  | runNginxTest : VEvent
  | removeTempDir : VEvent
deriving DecidableEq, Repr

/-- The world a validator run interacts with: the result of the
existence check on `nginx.conf`, the result of reading it, and the
success of temp-dir creation, directory copy, the varify run
(rendering), and the nginx `-t` syntax test. -/
structure ValidateWorld where
  confExists : Except String Bool
  confContent : Except String String
  tempDirOk : Bool
  copyOk : Bool
  varifyRunOk : Bool
  nginxTestOk : Bool

/-- Pattern is a prefix of the text (both as character lists). -/
def startsWithPat : List Char → List Char → Bool
  | [], _ => true
  | _ :: _, [] => false
  | p :: ps, c :: cs => p = c && startsWithPat ps cs

/-- Pattern occurs as a contiguous substring of the text. -/
def containsPat (pat : List Char) : List Char → Bool
  | [] => startsWithPat pat []
  | c :: cs => startsWithPat pat (c :: cs) || containsPat pat cs

/-- The raw template text contains the literal `port` placeholder
(`regexp.Match` of the constant pattern is plain substring search). -/
def containsPort (conf : String) : Bool :=
  containsPat "\x7b\x7bport\x7d\x7d".toList conf.toList

/-- Embedding of `validateNginxConfExists` (supply.go lines 153-161). -/
def validateNginxConfExists (w : ValidateWorld) :
    Except VError Unit × List VEvent :=
  match w.confExists with
  | Except.error m => (Except.error (VError.ioError m), [VEvent.checkExists])
  | Except.ok false => (Except.error VError.notFound, [VEvent.checkExists])
  | Except.ok true => (Except.ok (), [VEvent.checkExists])

/-- Embedding of `validateNginxConfHasPort` (supply.go lines 163-175). -/
def validateNginxConfHasPort (w : ValidateWorld) :
    Except VError Unit × List VEvent :=
  match w.confContent with
  | Except.error m => (Except.error (VError.ioError m), [VEvent.readConf])
  | Except.ok conf =>
    if containsPort conf then (Except.ok (), [VEvent.readConf])
    else (Except.error VError.noPortPlaceholder, [VEvent.readConf])

/-- Embedding of `validateNginxConfSyntax` (supply.go lines 177-205).
The `defer os.RemoveAll(tmpConfDir)` registered right after a
successful `ioutil.TempDir` translates to a `removeTempDir` event on
every exit path that follows it; a failed creation has nothing to
remove. -/
def validateNginxConfSyntax (w : ValidateWorld) :
    Except VError Unit × List VEvent :=
  if w.tempDirOk = false then
    (Except.error VError.tempDirError, [VEvent.createTempDir])
  else if w.copyOk = false then
    (Except.error VError.copyError,
      [VEvent.createTempDir, VEvent.copyDir, VEvent.removeTempDir])
  else if w.varifyRunOk = false then
    (Except.error VError.renderError,
      [VEvent.createTempDir, VEvent.copyDir, VEvent.runVarify,
        VEvent.removeTempDir])
  else if w.nginxTestOk = false then
    (Except.error VError.syntaxError,
      [VEvent.createTempDir, VEvent.copyDir, VEvent.runVarify,
        VEvent.runNginxTest, VEvent.removeTempDir])
  else
    (Except.ok (),
      [VEvent.createTempDir, VEvent.copyDir, VEvent.runVarify,
        VEvent.runNginxTest, VEvent.removeTempDir])

/-- Embedding of `validateNginxConf` (supply.go lines 143-151): the
three stages in order, each running only when every earlier stage
returned without error. -/
def validateNginxConf (w : ValidateWorld) :
    Except VError Unit × List VEvent :=
  match validateNginxConfExists w with
  | (Except.error e, t1) => (Except.error e, t1)
  | (Except.ok _, t1) =>
    match validateNginxConfHasPort w with
    | (Except.error e, t2) => (Except.error e, t1 ++ t2)
    | (Except.ok _, t2) =>
      match validateNginxConfSyntax w with
      | (r, t3) => (r, t1 ++ t2 ++ t3)

/-- A trace leaves the temporary directory in existence when it records
its creation but not its removal. -/
def tempDirLeaked (t : List VEvent) : Bool :=
  t.contains VEvent.createTempDir && !(t.contains VEvent.removeTempDir)

/-! ## Supporting lemmas -/

theorem highestVersion_mem {vs : List String} {v : String}
    (h : highestVersion vs = some v) : v ∈ vs := by
  induction vs generalizing v with
  | nil => exact absurd h (by simp [highestVersion])
  | cons x rest ih =>
    simp only [highestVersion] at h
    rcases hr : highestVersion rest with _ | b <;> rw [hr] at h
    · by_cases hp : (parseSemVer x).isSome = true
      · rw [if_pos hp] at h
        injection h with h
        subst h
        exact List.mem_cons_self x rest
      · rw [if_neg hp] at h
        exact absurd h (by simp)
    · rcases hx : parseSemVer x with _ | pv <;> rcases hb : parseSemVer b with _ | pb <;>
        simp only [hx, hb] at h
      · injection h with h
        subst h
        exact List.mem_cons_of_mem x (ih hr)
      · injection h with h
        subst h
        exact List.mem_cons_of_mem x (ih hr)
      · injection h with h
        subst h
        exact List.mem_cons_self x rest
      · by_cases hlt : semVerLt pb pv = true
        · rw [if_pos hlt] at h
          injection h with h
          subst h
          exact List.mem_cons_self x rest
        · rw [if_neg hlt] at h
          injection h with h
          subst h
          exact List.mem_cons_of_mem x (ih hr)

theorem FindMatchingVersion_ok_mem {c v : String} {vs : List String}
    (h : FindMatchingVersion c vs = Except.ok v) : v ∈ vs := by
  unfold FindMatchingVersion at h
  rcases hh : highestVersion (vs.filter fun x => constraintMatches c x) with _ | b <;>
    rw [hh] at h
  · exact absurd h (by simp)
  · exact List.mem_of_mem_filter (highestVersion_mem ((Except.ok.inj h) ▸ hh))

theorem FindMatchingVersion_no_match {c : String} {vs : List String}
    (h : ∀ v ∈ vs, constraintMatches c v = false) :
    FindMatchingVersion c vs = Except.error ResolutionError.NoMatchingVersion := by
  unfold FindMatchingVersion
  have hnil : vs.filter (fun v => constraintMatches c v) = [] := by
    rw [List.filter_eq_nil_iff]
    intro a ha
    simp [h a ha]
  rw [hnil]
  rfl

theorem parseSemVer_isSome_of_matches {c v : String}
    (h : constraintMatches c v = true) : (parseSemVer v).isSome := by
  unfold constraintMatches at h
  rcases hc : parseConstraint c with _ | pc <;> rw [hc] at h
  · exact absurd h (by simp)
  · rcases hv : parseSemVer v with _ | pv <;> rw [hv] at h
    · exact absurd h (by simp)
    · simp [hv]

theorem FindMatchingVersion_singleton (c v : String) :
    (FindMatchingVersion c [v]).isOk = constraintMatches c v := by
  unfold FindMatchingVersion
  cases h : constraintMatches c v with
  | false => simp [List.filter_cons, h, highestVersion, Except.isOk, Except.toBool]
  | true =>
    have hp := parseSemVer_isSome_of_matches h
    simp [List.filter_cons, h, highestVersion, hp, Except.isOk, Except.toBool]

/-- A binding that the scanning loop of `getServiceProperty` walks past
without panicking: a JSON object whose `name` is a string different
from the requested service name. -/
def NonMatchBinding (serviceName : String) (b : JVal) : Prop :=
  ∃ kvs nm, b = JVal.jobj kvs ∧
    lookupJ kvs "name" = some (JVal.jstr nm) ∧ nm ≠ serviceName

theorem scanBindings_skip (serviceName propKey subPropKey : String)
    (numArgs : Nat) (pre rest : List JVal)
    (h : ∀ b ∈ pre, NonMatchBinding serviceName b) :
    scanBindings serviceName propKey subPropKey numArgs (pre ++ rest) =
      scanBindings serviceName propKey subPropKey numArgs rest := by
  induction pre with
  | nil => rfl
  | cons b pre ih =>
    obtain ⟨kvs, nm, hb, hname, hne⟩ := h b (List.mem_cons_self b pre)
    subst hb
    simp only [List.cons_append, scanBindings, hname, asString]
    rw [if_neg (fun hEq => hne hEq.symm)]
    exact ih (fun x hx => h x (List.mem_cons_of_mem _ hx))

/-! ## Claim theorems -/

/-- C3: when the requested spec is empty, resolution uses the
constraint bound to the `mainline` alias, failing with
`NoMainlineAlias` when that alias is absent; a non-empty requested spec
that is a key of the line table has its bound value substituted exactly
once as the effective constraint — the continuation `resolveWith` takes
no line table, so the substituted value is treated as a literal
constraint and never looked up in the table again. -/
theorem resolve_alias_substitution
    (lines : List (String × String)) (adv : String → List String)
    (depName spec val : String) :
    (lookupLine lines "mainline" = none →
      findMatchingVersion lines adv depName "" =
        Except.error ResolutionError.NoMainlineAlias) ∧
    (lookupLine lines "mainline" = some val →
      findMatchingVersion lines adv depName "" = resolveWith adv depName val) ∧
    (spec ≠ "" → lookupLine lines spec = some val →
      findMatchingVersion lines adv depName spec = resolveWith adv depName val) := by
  refine ⟨fun h => ?_, fun h => ?_, fun hne h => ?_⟩
  · simp [findMatchingVersion, effectiveConstraint, h]
  · simp [findMatchingVersion, effectiveConstraint, h]
  · simp [findMatchingVersion, effectiveConstraint, hne, h]

/-- Witness for C3: concrete resolutions through the `mainline` alias,
through a missing `mainline` alias, and through a table whose alias
value `"b"` is itself a key of the table — the result equals matching
the literal constraint `"b"`, not a second table lookup. -/
theorem resolve_alias_substitution_witness :
    (lookupLine [("mainline", "1.25.*")] "mainline" = some "1.25.*" ∧
      findMatchingVersion [("mainline", "1.25.*")]
          (fun _ => ["1.25.0", "1.25.3", "1.26.1"]) "nginx" "" =
        resolveWith (fun _ => ["1.25.0", "1.25.3", "1.26.1"]) "nginx" "1.25.*") ∧
    (lookupLine ([] : List (String × String)) "mainline" = none ∧
      findMatchingVersion [] (fun _ => ["1.25.0"]) "nginx" "" =
        Except.error ResolutionError.NoMainlineAlias) ∧
    (("a" ≠ "" ∧ lookupLine [("a", "b"), ("b", "1.0.0")] "a" = some "b") ∧
      findMatchingVersion [("a", "b"), ("b", "1.0.0")]
          (fun _ => ["1.0.0"]) "nginx" "a" =
        resolveWith (fun _ => ["1.0.0"]) "nginx" "b") := by
  refine ⟨⟨rfl, ?_⟩, ⟨rfl, ?_⟩, ⟨⟨?_, rfl⟩, ?_⟩⟩
  · exact (resolve_alias_substitution [("mainline", "1.25.*")]
      (fun _ => ["1.25.0", "1.25.3", "1.26.1"]) "nginx" "" "1.25.*").2.1 rfl
  · exact (resolve_alias_substitution [] (fun _ => ["1.25.0"]) "nginx" "" "").1 rfl
  · decide
  · exact (resolve_alias_substitution [("a", "b"), ("b", "1.0.0")]
      (fun _ => ["1.0.0"]) "nginx" "a" "b").2.2 (by decide) rfl

/-- C4: a successfully resolved dependency's version is a member of the
available-version set for that dependency (never an invented string),
and when no available version satisfies the effective constraint,
resolution fails with `NoMatchingVersion` and returns no version. -/
theorem resolve_version_membership
    (lines : List (String × String)) (adv : String → List String)
    (depName spec eff : String) (dep : Dependency) :
    (findMatchingVersion lines adv depName spec = Except.ok dep →
      dep.Version ∈ adv depName) ∧
    (effectiveConstraint lines spec = Except.ok eff →
      (∀ v ∈ adv depName, constraintMatches eff v = false) →
      findMatchingVersion lines adv depName spec =
        Except.error ResolutionError.NoMatchingVersion) := by
  constructor
  · intro h
    unfold findMatchingVersion at h
    split at h
    · exact absurd h (by simp)
    · unfold resolveWith at h
      split at h
      next e hf => exact absurd h (by simp)
      next ver hf =>
        injection h with h
        subst h
        exact FindMatchingVersion_ok_mem hf
  · intro he hall
    unfold findMatchingVersion
    rw [he]
    show resolveWith adv depName eff = Except.error ResolutionError.NoMatchingVersion
    unfold resolveWith
    rw [FindMatchingVersion_no_match hall]

/-- Witness for C4: a successful concrete resolution lands inside the
available set, and a constraint satisfied by no available version fails
with `NoMatchingVersion`. -/
theorem resolve_version_membership_witness :
    (findMatchingVersion [("mainline", "1.*")] (fun _ => ["1.2.3"]) "nginx" "" =
        Except.ok ⟨"nginx", "1.2.3"⟩ ∧
      (Dependency.mk "nginx" "1.2.3").Version ∈ ["1.2.3"]) ∧
    (effectiveConstraint [("mainline", "1.*")] "" = Except.ok "1.*" ∧
      (∀ v ∈ ["2.0.0"], constraintMatches "1.*" v = false) ∧
      findMatchingVersion [("mainline", "1.*")] (fun _ => ["2.0.0"]) "nginx" "" =
        Except.error ResolutionError.NoMatchingVersion) := by
  refine ⟨⟨rfl, ?_⟩, rfl, ?_, ?_⟩
  · exact (resolve_version_membership [("mainline", "1.*")] (fun _ => ["1.2.3"])
      "nginx" "" "1.*" ⟨"nginx", "1.2.3"⟩).1 rfl
  · decide
  · exact (resolve_version_membership [("mainline", "1.*")] (fun _ => ["2.0.0"])
      "nginx" "" "1.*" ⟨"nginx", "2.0.0"⟩).2 rfl (by decide)

/-- C5: `isStableLine` returns true exactly when the version matches
the constraint currently bound to the `stable` alias of the line table,
independently of any resolution outcome; with no `stable` entry it is
false (the absent entry reads as the empty constraint, which matches
nothing). -/
theorem isStableLine_iff_stable_alias
    (lines : List (String × String)) (v : String) :
    isStableLine lines v = matchesStableAlias lines v := by
  simp only [isStableLine, matchesStableAlias]
  rcases h : lookupLine lines "stable" with _ | c
  · rw [Option.getD_none, FindMatchingVersion_singleton]
    rfl
  · rw [Option.getD_some]
    exact FindMatchingVersion_singleton c v

/-- C1 counterexample: a 3-argument `svcprop` lookup in a catalog whose
only `db` binding is named `otherdb` — so no binding under the service
type matches the requested name `mydb` — returns the empty string as a
successful result instead of failing. -/
theorem svcprop_unmatched_counterexample :
    getServiceProperty
      [("db", [JVal.jobj [("name", JVal.jstr "otherdb"), ("uri", JVal.jstr "x")]])]
      ["db", "mydb", "uri"] = Except.ok "" := rfl

/-- C1 (amended): when no binding under the given service type has a
name equal to the given service name (each scanned binding being an
object with a string name), a 3- or 4-argument `svcprop` lookup
silently returns the empty string and the surrounding render succeeds
with the empty string in that position — an unmatched lookup is not a
hard failure. -/
theorem svcprop_unmatched_returns_empty
    (services : List (String × List JVal)) (e : String → Option String)
    (t n k : String) (rest : List String)
    (_hargs : rest = [] ∨ ∃ sk, rest = [sk])
    (h : ∀ b ∈ bindingsOf services t, NonMatchBinding n b) :
    getServiceProperty services (t :: n :: k :: rest) = Except.ok "" ∧
    execTemplate e services [TNode.svcpropCall (t :: n :: k :: rest)] =
      Except.ok "" := by
  have hmain : getServiceProperty services (t :: n :: k :: rest) = Except.ok "" := by
    show scanBindings n k (rest.headD "") (rest.length + 3)
      (bindingsOf services t) = Except.ok ""
    have hskip := scanBindings_skip n k (rest.headD "") (rest.length + 3)
      (bindingsOf services t) [] h
    rw [List.append_nil] at hskip
    rw [hskip]
    rfl
  refine ⟨hmain, ?_⟩
  unfold execTemplate execNode
  dsimp only
  rw [hmain]
  rfl

/-- Witness for the amended C1 at a concrete one-binding catalog. -/
theorem svcprop_unmatched_returns_empty_witness :
    (([] : List String) = [] ∨ ∃ sk, ([] : List String) = [sk]) ∧
    (∀ b ∈ bindingsOf
        [("db", [JVal.jobj [("name", JVal.jstr "otherdb"), ("uri", JVal.jstr "y")]])]
        "db", NonMatchBinding "mydb" b) ∧
    getServiceProperty
        [("db", [JVal.jobj [("name", JVal.jstr "otherdb"), ("uri", JVal.jstr "y")]])]
        ["db", "mydb", "uri"] = Except.ok "" ∧
    execTemplate (fun _ => none)
        [("db", [JVal.jobj [("name", JVal.jstr "otherdb"), ("uri", JVal.jstr "y")]])]
        [TNode.svcpropCall ["db", "mydb", "uri"]] = Except.ok "" := by
  have hb : ∀ b ∈ bindingsOf
      [("db", [JVal.jobj [("name", JVal.jstr "otherdb"), ("uri", JVal.jstr "y")]])]
      "db", NonMatchBinding "mydb" b := by
    intro b hbmem
    have hl : bindingsOf
        [("db", [JVal.jobj [("name", JVal.jstr "otherdb"), ("uri", JVal.jstr "y")]])]
        "db" = [JVal.jobj [("name", JVal.jstr "otherdb"), ("uri", JVal.jstr "y")]] := rfl
    rw [hl, List.mem_singleton] at hbmem
    subst hbmem
    exact ⟨[("name", JVal.jstr "otherdb"), ("uri", JVal.jstr "y")], "otherdb",
      rfl, rfl, by decide⟩
  refine ⟨Or.inl rfl, hb, ?_, ?_⟩
  · exact (svcprop_unmatched_returns_empty
      [("db", [JVal.jobj [("name", JVal.jstr "otherdb"), ("uri", JVal.jstr "y")]])]
      (fun _ => none) "db" "mydb" "uri" [] (Or.inl rfl) hb).1
  · exact (svcprop_unmatched_returns_empty
      [("db", [JVal.jobj [("name", JVal.jstr "otherdb"), ("uri", JVal.jstr "y")]])]
      (fun _ => none) "db" "mydb" "uri" [] (Or.inl rfl) hb).2

/-- C6: with the catalog containing under service type `t` a first
binding named `n` (every earlier binding in catalog order being an
object with a different string name), the 3-argument form returns that
binding's string property `k`, and the 4-argument form returns string
sub-key `sk` of the nested object at `k` of that same first matching
binding.  Whatever follows the first match — including later bindings
with the same name — is ignored: `post` is arbitrary. -/
theorem svcprop_first_match
    (services : List (String × List JVal)) (t n k sk propVal subVal : String)
    (pre post : List JVal) (kvs sub : List (String × JVal))
    (hb : bindingsOf services t = pre ++ JVal.jobj kvs :: post)
    (hpre : ∀ b ∈ pre, NonMatchBinding n b)
    (hname : lookupJ kvs "name" = some (JVal.jstr n)) :
    (lookupJ kvs k = some (JVal.jstr propVal) →
      getServiceProperty services [t, n, k] = Except.ok propVal) ∧
    (lookupJ kvs k = some (JVal.jobj sub) →
      lookupJ sub sk = some (JVal.jstr subVal) →
      getServiceProperty services [t, n, k, sk] = Except.ok subVal) := by
  constructor
  · intro hk
    show scanBindings n k "" 3 (bindingsOf services t) = Except.ok propVal
    rw [hb, scanBindings_skip n k "" 3 pre _ hpre]
    simp [scanBindings, hname, asString, hk]
  · intro hk hsk
    show scanBindings n k sk 4 (bindingsOf services t) = Except.ok subVal
    rw [hb, scanBindings_skip n k sk 4 pre _ hpre]
    simp [scanBindings, hname, asString, asObj, hk, hsk]

/-- Properties of the first of two same-named `mydb` bindings, used to
witness C6. -/
def mydbFirst : List (String × JVal) :=
  [("name", JVal.jstr "mydb"), ("uri", JVal.jstr "postgres://first"),
    ("creds", JVal.jobj [("user", JVal.jstr "u1")])]

/-- A later binding with the same name, which C6 says is ignored. -/
def mydbSecond : JVal :=
  JVal.jobj [("name", JVal.jstr "mydb"), ("uri", JVal.jstr "postgres://second")]

/-- A catalog holding two `db` bindings that share the name `mydb`. -/
def dupCatalog : List (String × List JVal) :=
  [("db", [JVal.jobj mydbFirst, mydbSecond])]

/-- Witness for C6: in `dupCatalog` both lookup forms return the
properties of the first `mydb` binding, ignoring the second one. -/
theorem svcprop_first_match_witness :
    (bindingsOf dupCatalog "db" = [] ++ JVal.jobj mydbFirst :: [mydbSecond] ∧
      lookupJ mydbFirst "name" = some (JVal.jstr "mydb") ∧
      lookupJ mydbFirst "uri" = some (JVal.jstr "postgres://first") ∧
      lookupJ mydbFirst "creds" = some (JVal.jobj [("user", JVal.jstr "u1")]) ∧
      lookupJ [("user", JVal.jstr "u1")] "user" = some (JVal.jstr "u1")) ∧
    getServiceProperty dupCatalog ["db", "mydb", "uri"] =
      Except.ok "postgres://first" ∧
    getServiceProperty dupCatalog ["db", "mydb", "creds", "user"] =
      Except.ok "u1" := by
  refine ⟨⟨rfl, rfl, rfl, rfl, rfl⟩, ?_, ?_⟩
  · exact (svcprop_first_match dupCatalog "db" "mydb" "uri" "user"
      "postgres://first" "u1" [] [mydbSecond] mydbFirst
      [("user", JVal.jstr "u1")] rfl
      (fun b hbm => absurd hbm (List.not_mem_nil b)) rfl).1 rfl
  · exact (svcprop_first_match dupCatalog "db" "mydb" "creds" "user"
      "postgres://first" "u1" [] [mydbSecond] mydbFirst
      [("user", JVal.jstr "u1")] rfl
      (fun b hbm => absurd hbm (List.not_mem_nil b)) rfl).2 rfl rfl

/-- C10: an unset, empty, or syntactically invalid service-bindings
blob leaves the decoded catalog nil (its decode error is discarded
unread), as does a valid blob whose top level is not an object; against
the resulting empty catalog every 3- or 4-argument `svcprop` lookup
returns the empty string and a render containing such a call succeeds
rather than failing. -/
theorem svcprop_invalid_json_empty_catalog :
    decodeVCAP none = [] ∧
    (∀ s, decodeVCAP (some (JVal.jstr s)) = []) ∧
    (∀ xs, decodeVCAP (some (JVal.jarr xs)) = []) ∧
    (∀ t n k, getServiceProperty (decodeVCAP none) [t, n, k] = Except.ok "") ∧
    (∀ t n k sk,
      getServiceProperty (decodeVCAP none) [t, n, k, sk] = Except.ok "") ∧
    (∀ e t n k,
      execTemplate e (decodeVCAP none) [TNode.svcpropCall [t, n, k]] =
        Except.ok "") :=
  ⟨rfl, fun _ => rfl, fun _ => rfl, fun _ _ _ => rfl, fun _ _ _ _ => rfl,
    fun _ _ _ _ => rfl⟩

/-- A run of the standalone tool over a file holding a malformed
template: the read succeeds, `os.Create` succeeds, the parser rejects
the body. -/
def parseFailWorld : VarifyWorld :=
  { disk := some "server \x7b\x7b"
    createOk := true
    parseOk := fun _ => false
    renderResult := fun b => Except.ok b }

/-- C2 counterexample: with original file content `server ` followed by
two opening braces and a parser that rejects that body, the run ends in
`parseError` with no substitution — but the file on disk afterwards is
empty rather than holding its original content, because `os.Create`
truncated it before the template was parsed. -/
theorem varify_parse_failure_counterexample :
    (varifyMain parseFailWorld).1 = MainOutcome.parseError ∧
    (varifyMain parseFailWorld).2.1 = some "" ∧
    parseFailWorld.disk = some "server \x7b\x7b" ∧
    (varifyMain parseFailWorld).2.1 ≠ parseFailWorld.disk := by
  refine ⟨rfl, rfl, rfl, ?_⟩
  intro hcontra
  simp [varifyMain, parseFailWorld] at hcontra

/-- C2 (amended): a parse failure produces `parseError` before any
substitution — the execute step is never reached, so no rendered output
is written — but the target file's original content is not preserved:
the tool truncates the file by opening it for writing before parsing,
leaving it empty when parsing fails. -/
theorem varify_parse_failure_truncates
    (body : String) (parse : String → Bool)
    (render : String → Except (String × String) String)
    (h : parse body = false) :
    varifyMain ⟨some body, true, parse, render⟩ =
      (MainOutcome.parseError, some "",
        [MEvent.readFile, MEvent.createFile, MEvent.parseTemplate]) := by
  unfold varifyMain
  simp [h]

/-- Witness for the amended C2 at a concrete body and parser. -/
theorem varify_parse_failure_truncates_witness :
    ((fun _ : String => false) "x" = false) ∧
    varifyMain ⟨some "x", true, fun _ => false, fun _ => Except.ok ""⟩ =
      (MainOutcome.parseError, some "",
        [MEvent.readFile, MEvent.createFile, MEvent.parseTemplate]) :=
  ⟨rfl, varify_parse_failure_truncates "x" (fun _ => false)
    (fun _ => Except.ok "") rfl⟩

/-- C7: evaluation of the renderer at the claim's inputs.  The port
example holds — with the port variable set to `8080` the rendered text
contains the literal `8080` in position — but substitution is not
verbatim byte for byte: the HTML templating engine the tool is built on
escapes every substituted value, so `env` of a variable holding `a&b`
renders `a&amp;b`. -/
theorem env_directive_html_escapes :
    execTemplate (fun x => if x = "PORT" then some "8080" else none) []
      [TNode.text "listen ", TNode.portCall, TNode.text ";"] =
      Except.ok "listen 8080;" ∧
    execTemplate (fun x => if x = "X" then some "a&b" else none) []
      [TNode.envCall "X"] = Except.ok "a&amp;b" ∧
    "a&amp;b" ≠ "a&b" :=
  ⟨rfl, rfl, by decide⟩

/-- C8: the validator is a strict short-circuiting pipeline
Existence → PortPlaceholder → SyntaxCheck.  When the existence check
reports the config file absent the run fails with `notFound` and the
trace is the existence check alone — no rendering and no syntax test;
when the file exists but its raw text lacks the port placeholder the
run fails with `noPortPlaceholder` and the trace stops at the read —
the syntax-test stage (and the server's test mode) is never entered;
and whenever the syntax-check stage starts (its temp-dir creation is in
the trace), the existence check passed and the raw text contained the
placeholder. -/
theorem validate_pipeline_short_circuit (w : ValidateWorld) (conf : String) :
    (w.confExists = Except.ok false →
      validateNginxConf w =
        (Except.error VError.notFound, [VEvent.checkExists])) ∧
    (w.confExists = Except.ok true → w.confContent = Except.ok conf →
      containsPort conf = false →
      validateNginxConf w =
        (Except.error VError.noPortPlaceholder,
          [VEvent.checkExists, VEvent.readConf])) ∧
    ((validateNginxConf w).2.contains VEvent.createTempDir = true →
      w.confExists = Except.ok true ∧
      ∃ c, w.confContent = Except.ok c ∧ containsPort c = true) := by
  refine ⟨fun h1 => ?_, fun h1 h2 h3 => ?_, fun h => ?_⟩
  · simp [validateNginxConf, validateNginxConfExists, h1]
  · simp [validateNginxConf, validateNginxConfExists,
      validateNginxConfHasPort, h1, h2, h3]
  · rcases hce : w.confExists with m | b
    · have hv : validateNginxConf w =
          (Except.error (VError.ioError m), [VEvent.checkExists]) := by
        simp [validateNginxConf, validateNginxConfExists, hce]
      have h2 : ([VEvent.checkExists] : List VEvent).contains
          VEvent.createTempDir = true := by rw [hv] at h; exact h
      exact absurd h2 (by decide)
    · cases b with
      | false =>
        have hv : validateNginxConf w =
            (Except.error VError.notFound, [VEvent.checkExists]) := by
          simp [validateNginxConf, validateNginxConfExists, hce]
        have h2 : ([VEvent.checkExists] : List VEvent).contains
            VEvent.createTempDir = true := by rw [hv] at h; exact h
        exact absurd h2 (by decide)
      | true =>
        rcases hcc : w.confContent with m | c2
        · have hv : validateNginxConf w =
              (Except.error (VError.ioError m),
                [VEvent.checkExists, VEvent.readConf]) := by
            simp [validateNginxConf, validateNginxConfExists,
              validateNginxConfHasPort, hce, hcc]
          have h2 : ([VEvent.checkExists, VEvent.readConf] : List VEvent).contains
              VEvent.createTempDir = true := by rw [hv] at h; exact h
          exact absurd h2 (by decide)
        · cases hp : containsPort c2 with
          | false =>
            have hv : validateNginxConf w =
                (Except.error VError.noPortPlaceholder,
                  [VEvent.checkExists, VEvent.readConf]) := by
              simp [validateNginxConf, validateNginxConfExists,
                validateNginxConfHasPort, hce, hcc, hp]
            have h2 : ([VEvent.checkExists, VEvent.readConf] : List VEvent).contains
                VEvent.createTempDir = true := by rw [hv] at h; exact h
            exact absurd h2 (by decide)
          | true => exact ⟨rfl, c2, rfl, hp⟩

/-- Build directory with no `nginx.conf`. -/
def wMissingConf : ValidateWorld :=
  ⟨Except.ok false, Except.ok "", true, true, true, true⟩

/-- Config file present but without the port placeholder. -/
def wNoPort : ValidateWorld :=
  ⟨Except.ok true, Except.ok "worker_processes 1;", true, true, true, true⟩

/-- Config file present and containing the port placeholder, with all
later steps succeeding. -/
def wGoodConf : ValidateWorld :=
  ⟨Except.ok true, Except.ok "listen \x7b\x7bport\x7d\x7d;",
    true, true, true, true⟩

/-- Witness for C8 at the three concrete worlds. -/
theorem validate_pipeline_short_circuit_witness :
    (wMissingConf.confExists = Except.ok false ∧
      validateNginxConf wMissingConf =
        (Except.error VError.notFound, [VEvent.checkExists])) ∧
    (wNoPort.confExists = Except.ok true ∧
      wNoPort.confContent = Except.ok "worker_processes 1;" ∧
      containsPort "worker_processes 1;" = false ∧
      validateNginxConf wNoPort =
        (Except.error VError.noPortPlaceholder,
          [VEvent.checkExists, VEvent.readConf])) ∧
    ((validateNginxConf wGoodConf).2.contains VEvent.createTempDir = true ∧
      wGoodConf.confExists = Except.ok true ∧
      ∃ c, wGoodConf.confContent = Except.ok c ∧ containsPort c = true) := by
  refine ⟨⟨rfl, ?_⟩, ⟨rfl, rfl, rfl, ?_⟩, ⟨rfl, ?_⟩⟩
  · exact (validate_pipeline_short_circuit wMissingConf "").1 rfl
  · exact (validate_pipeline_short_circuit wNoPort "worker_processes 1;").2.1
      rfl rfl rfl
  · exact (validate_pipeline_short_circuit wGoodConf "").2.2 rfl

/-- C9: whenever the temporary directory was successfully created, the
syntax-check stage's trace records its removal and does not leak it, on
every exit path — copy failure, render failure, syntax-test failure and
success alike. -/
theorem validate_syntax_tempdir_cleanup (w : ValidateWorld)
    (h : w.tempDirOk = true) :
    (validateNginxConfSyntax w).2.contains VEvent.removeTempDir = true ∧
    tempDirLeaked (validateNginxConfSyntax w).2 = false := by
  unfold validateNginxConfSyntax tempDirLeaked
  cases hc : w.copyOk <;> cases hv : w.varifyRunOk <;>
    cases hn : w.nginxTestOk <;> simp [h, hc, hv, hn]

/-- A world whose directory copy fails after the temp dir was made. -/
def wCopyFail : ValidateWorld :=
  ⟨Except.ok true, Except.ok "listen \x7b\x7bport\x7d\x7d;",
    true, false, true, true⟩

/-- Witness for C9 on a failing exit path (copy failure). -/
theorem validate_syntax_tempdir_cleanup_witness :
    wCopyFail.tempDirOk = true ∧
    (validateNginxConfSyntax wCopyFail).2.contains VEvent.removeTempDir = true ∧
    tempDirLeaked (validateNginxConfSyntax wCopyFail).2 = false :=
  ⟨rfl, (validate_syntax_tempdir_cleanup wCopyFail rfl).1,
    (validate_syntax_tempdir_cleanup wCopyFail rfl).2⟩

end NginxBuildpack
